import Mathlib

/-!
Verification of the Ramble voice-memo pipeline core: the retry-with-backoff
wrapper and circuit breaker from `src/error_handler.py`, the per-file pipeline
and inbox scanner from `src/processor.py`, the storage operations from
`src/dropbox_client.py`, and the output organizer from `src/file_organizer.py`.

Shallow embedding conventions:
* Python floats used for delays/timestamps become `ℚ`.
* A raised exception becomes an explicit error value (`Except`, `Option`, or a
  `Bool` success flag), mirroring the `try/except` structure of the source.
* Storage (Dropbox) state is the multiset of file names in each logical folder,
  modelled as lists; `files_move_v2 src dst` succeeds exactly when the source
  file is present and the environment does not inject a transient API error.
-/

namespace Ramble

/-! ## Retry with backoff (`ErrorHandler.retry_with_backoff`) -/

/-- Outcome of a retried call: success, a `RetryError` wrapping the last
underlying error after exhaustion, or an ineligible exception propagating
uncaught past the `except exceptions` clause. -/
inductive RetryOutcome (E A : Type) where
  | ok : A → RetryOutcome E A
  | retryError : E → RetryOutcome E A
  | raised : E → RetryOutcome E A
  deriving DecidableEq, Repr

/-- A complete run of the retry loop: its outcome, the list of back-off sleep
durations performed (in order), and how many times the wrapped operation was
invoked. -/
structure RetryRun (E A : Type) where
  outcome : RetryOutcome E A
  sleeps : List ℚ
  calls : Nat
  deriving DecidableEq, Repr

/-- The `for attempt in range(retries + 1)` loop of `retry_with_backoff`.
`f i` is the result of the i-th invocation of the wrapped operation,
`eligible` the `except exceptions` test, `remaining` the number of retries
still allowed (`retries - attempt` in the source). -/
def retryLoop (f : Nat → Except E A) (eligible : E → Bool) (backoff : ℚ) :
    Nat → Nat → ℚ → RetryRun E A
  | attempt, remaining, delay =>
    match f attempt with
    | Except.ok a => ⟨RetryOutcome.ok a, [], 1⟩
    | Except.error e =>
      if eligible e then
        match remaining with
        | 0 => ⟨RetryOutcome.retryError e, [], 1⟩
        | r + 1 =>
          let rest := retryLoop f eligible backoff (attempt + 1) r (delay * backoff)
          ⟨rest.outcome, delay :: rest.sleeps, rest.calls + 1⟩
      else ⟨RetryOutcome.raised e, [], 1⟩

/-- `retries = max_retries or self.max_retries`: Python `or` treats both
`None` and `0` as falsy, so a passed value of `0` falls back to the handler
default. -/
def resolveRetries (selfMax : Nat) (maxRetries : Option Nat) : Nat :=
  match maxRetries with
  | none => selfMax
  | some 0 => selfMax
  | some (k + 1) => k + 1

/-- `ErrorHandler.retry_with_backoff`, with the handler's configured
`max_retries`/`base_delay` passed explicitly as `selfMax`/`base_delay`. -/
def retry_with_backoff (selfMax : Nat) (base_delay : ℚ) (maxRetries : Option Nat)
    (eligible : E → Bool) (backoff_factor : ℚ) (f : Nat → Except E A) :
    RetryRun E A :=
  retryLoop f eligible backoff_factor 0 (resolveRetries selfMax maxRetries) base_delay

/-! ## Circuit breaker (`CircuitBreaker`) -/

inductive CBState where
  | closed
  | opened
  | halfOpen
  deriving DecidableEq, Repr

structure CircuitBreaker where
  failure_threshold : Nat
  recovery_timeout : ℚ
  failure_count : Nat
  last_failure_time : Option ℚ
  state : CBState
  deriving DecidableEq, Repr

/-- `CircuitBreaker.__init__`: fresh breaker in `CLOSED` with no failures. -/
def CircuitBreaker.init (threshold : Nat) (timeout : ℚ) : CircuitBreaker :=
  ⟨threshold, timeout, 0, none, CBState.closed⟩

/-- `CircuitBreaker._should_attempt_reset`. -/
def CircuitBreaker.should_attempt_reset (cb : CircuitBreaker) (now : ℚ) : Bool :=
  match cb.last_failure_time with
  | none => true
  | some t => decide (cb.recovery_timeout ≤ now - t)

/-- `CircuitBreaker._on_success`: `HALF_OPEN` resets to `CLOSED`; the failure
count and last failure time are cleared from any state. -/
def CircuitBreaker.on_success (cb : CircuitBreaker) : CircuitBreaker :=
  ⟨cb.failure_threshold, cb.recovery_timeout, 0, none,
    if cb.state = CBState.halfOpen then CBState.closed else cb.state⟩

/-- `CircuitBreaker._on_failure` at time `now`: increment the count, stamp the
time, and open the circuit once the incremented count reaches the threshold. -/
def CircuitBreaker.on_failure (cb : CircuitBreaker) (now : ℚ) : CircuitBreaker :=
  ⟨cb.failure_threshold, cb.recovery_timeout, cb.failure_count + 1, some now,
    if cb.failure_threshold ≤ cb.failure_count + 1 then CBState.opened
    else cb.state⟩

/-- Result of `CircuitBreaker.call`: a returned value, the fast-fail
"Circuit breaker is OPEN" exception, or the underlying error re-raised. -/
inductive CallResult (E A : Type) where
  | ok : A → CallResult E A
  | circuitOpen : CallResult E A
  | raised : E → CallResult E A
  deriving DecidableEq, Repr

/-- One `CircuitBreaker.call`: its result, the breaker afterwards, and
whether the wrapped operation was actually invoked. -/
structure CallRun (E A : Type) where
  result : CallResult E A
  breaker : CircuitBreaker
  invoked : Bool
  deriving DecidableEq, Repr

/-- The `try: result = func(...)` part of `call`, shared by every path that
reaches the operation. `op` is the operation's outcome, `now` the wall clock
at the moment of a failure. -/
def CircuitBreaker.runOp (cb : CircuitBreaker) (now : ℚ) (op : Except E A) :
    CallRun E A :=
  match op with
  | Except.ok a => ⟨CallResult.ok a, cb.on_success, true⟩
  | Except.error e => ⟨CallResult.raised e, cb.on_failure now, true⟩

/-- `CircuitBreaker.call`. -/
def CircuitBreaker.call (cb : CircuitBreaker) (now : ℚ) (op : Except E A) :
    CallRun E A :=
  if cb.state = CBState.opened then
    if cb.should_attempt_reset now then
      CircuitBreaker.runOp { cb with state := CBState.halfOpen } now op
    else ⟨CallResult.circuitOpen, cb, false⟩
  else cb.runOp now op

/-- Fold a sequence of failing calls (error `e`, at successive times `ts`)
through the breaker, keeping only the breaker state. -/
def failCalls (e : E) (cb : CircuitBreaker) (ts : List ℚ) : CircuitBreaker :=
  ts.foldl (fun c t => (CircuitBreaker.call c t (Except.error e : Except E Unit)).breaker) cb

/-- Invariant of reachable breakers: whenever the breaker is `OPEN` or
`HALF_OPEN`, at least `failure_threshold` failures are recorded. This
justifies the count hypothesis of the C4 theorem and is preserved by every
`call` (`CBInv_call`). -/
def CBInv (cb : CircuitBreaker) : Prop :=
  (cb.state = CBState.opened ∨ cb.state = CBState.halfOpen) →
    cb.failure_threshold ≤ cb.failure_count

/-! ## Breaker wrapping the retry loop as a single call
(`processor.py` lines 67-81: `breaker.call(error_handler.retry_with_backoff, op, ...)`) -/

/-- Errors escaping `retry_with_backoff` into the breaker: the `RetryError`
raised on exhaustion, or an ineligible underlying error propagating uncaught. -/
inductive PipeErr (E : Type) where
  | retriesExhausted : E → PipeErr E
  | underlying : E → PipeErr E
  deriving DecidableEq, Repr

def retryOutcomeToExcept : RetryOutcome E A → Except (PipeErr E) A
  | RetryOutcome.ok a => Except.ok a
  | RetryOutcome.retryError e => Except.error (PipeErr.retriesExhausted e)
  | RetryOutcome.raised e => Except.error (PipeErr.underlying e)

/-- The transcribe/enhance step shape of `_process_single_file`: the breaker
wraps one whole `retry_with_backoff` run as a single call. -/
def breakerRetryCall (cb : CircuitBreaker) (now : ℚ) (selfMax : Nat) (base : ℚ)
    (m : Option Nat) (elig : E → Bool) (b : ℚ) (f : Nat → Except E A) :
    CallRun (PipeErr E) A :=
  cb.call now (retryOutcomeToExcept (retry_with_backoff selfMax base m elig b f).outcome)

/-! ## Storage model and the file pipeline (`dropbox_client.py`, `processor.py`)

Storage is the list of file names in each logical Dropbox folder plus the set
of uploaded output bundles. Each client method performs one API call; a
transient failure of that call is injected by a per-item environment flag, and
`files_move_v2`/`files_delete_v2` also fail when the source file is absent. -/

/-- One Dropbox API call attempted by the pipeline (reads excluded). -/
inductive Op where
  | claimMove (name : String)
  | failedMove (name : String)
  | procFailedMove (name : String)
  | deleteProc (name : String)
  | uploadBundle (name : String)
  deriving DecidableEq, Repr

structure Storage where
  inbox : List String
  processing : List String
  failed : List String
  processedOut : List String
  deriving DecidableEq, Repr

/-- Whether each storage call an item's pipeline may attempt goes through
without a transient API error. -/
structure ItemEnv where
  claimOk : Bool
  downloadOk : Bool
  transcribeOk : Bool
  enhanceOk : Bool
  organizeOk : Bool
  deleteOk : Bool
  procFailedMoveOk : Bool
  inboxFailedMoveOk : Bool
  deriving DecidableEq, Repr

/-- `DropboxClient.move_to_processing`: `files_move_v2(inbox_path,
processing_path)`; on `ApiError` it raises (`none`), otherwise returns the
updated storage. -/
def move_to_processing (env : ItemEnv) (s : Storage) (name : String) :
    Option Storage :=
  if env.claimOk = true ∧ name ∈ s.inbox then
    some { s with inbox := s.inbox.erase name, processing := name :: s.processing }
  else none

/-- `DropboxClient.move_to_failed`: moves the inbox copy to the failed folder;
catches `ApiError` and only logs, so it never raises. -/
def move_to_failed (env : ItemEnv) (s : Storage) (name : String) : Storage :=
  if env.inboxFailedMoveOk = true ∧ name ∈ s.inbox then
    { s with inbox := s.inbox.erase name, failed := name :: s.failed }
  else s

/-- `DropboxClient.move_to_failed_from_processing`: best-effort move of the
processing copy to the failed folder; catches `ApiError` and only logs. -/
def move_to_failed_from_processing (env : ItemEnv) (s : Storage) (name : String) :
    Storage :=
  if env.procFailedMoveOk = true ∧ name ∈ s.processing then
    { s with processing := s.processing.erase name, failed := name :: s.failed }
  else s

/-- `DropboxClient.delete_processing_file`: `files_delete_v2` on the processing
copy; catches `ApiError` and only logs, so a failed delete leaves the copy. -/
def delete_processing_file (env : ItemEnv) (s : Storage) (name : String) :
    Storage :=
  if env.deleteOk = true ∧ name ∈ s.processing then
    { s with processing := s.processing.erase name }
  else s

/-- Result of `VoiceMemoProcessor._process_single_file`: whether it returned
normally (`ok`), the storage afterwards, and the write API calls attempted. -/
structure RunResult where
  ok : Bool
  store : Storage
  trace : List Op
  deriving DecidableEq, Repr

/-- `VoiceMemoProcessor._process_single_file`. The claim move happens before
the `try`, so its failure propagates with storage untouched. Download,
transcribe and enhance touch no storage; any of them failing (or the organize
stage failing) triggers the abort path `move_to_failed_from_processing` and
re-raises. On full success the organizer has uploaded the bundle and the
processing copy is deleted (best-effort). -/
def process_single_file (env : ItemEnv) (s : Storage) (name : String) :
    RunResult :=
  match move_to_processing env s name with
  | none => ⟨false, s, [Op.claimMove name]⟩
  | some s1 =>
    if env.downloadOk = true ∧ env.transcribeOk = true ∧ env.enhanceOk = true then
      if env.organizeOk = true then
        ⟨true,
          delete_processing_file env
            { s1 with processedOut := name :: s1.processedOut } name,
          [Op.claimMove name, Op.uploadBundle name, Op.deleteProc name]⟩
      else
        ⟨false, move_to_failed_from_processing env s1 name,
          [Op.claimMove name, Op.procFailedMove name]⟩
    else
      ⟨false, move_to_failed_from_processing env s1 name,
        [Op.claimMove name, Op.procFailedMove name]⟩

/-- One iteration of the `for file_info in files` loop of
`VoiceMemoProcessor.process_inbox`: run the pipeline; on any escaping
exception, log and best-effort move the inbox copy to the failed folder. -/
def process_item (env : ItemEnv) (s : Storage) (name : String) :
    Storage × List Op :=
  let r := process_single_file env s name
  if r.ok then (r.store, r.trace)
  else (move_to_failed env r.store name, r.trace ++ [Op.failedMove name])

/-- `VoiceMemoProcessor.process_inbox`: list the inbox; if empty return
immediately; otherwise run each listed item through the pipeline with its
per-item catch, threading storage and accumulating attempted calls. -/
def process_inbox (envs : String → ItemEnv) (s : Storage) : Storage × List Op :=
  let files := s.inbox
  if files = [] then (s, [])
  else
    files.foldl (fun acc name =>
      let p := process_item (envs name) acc.1 name
      (p.1, acc.2 ++ p.2)) (s, [])

/-! ## Output organizer (`file_organizer.py`) -/

/-- Whether each local artifact write succeeds, and whether the `i`-th file
upload of `_upload_folder_to_dropbox` succeeds. -/
structure OrgEnv where
  saveAudioOk : Bool
  saveTranscriptOk : Bool
  saveContentOk : Bool
  saveMetadataOk : Bool
  uploadOk : Nat → Bool

/-- Local output folder contents and the files uploaded under
`processed/<bundle>/` in Dropbox. -/
structure OrgState where
  localFiles : List String
  remoteFiles : List String
  deriving DecidableEq, Repr

/-- The four artifact writes of `create_output_folder`, in source order; a
failing write raises with the earlier artifacts already on disk. Artifact
names are fixed representative file names. -/
def buildLocal (env : OrgEnv) : Bool × List String :=
  if env.saveAudioOk = true then
    if env.saveTranscriptOk = true then
      if env.saveContentOk = true then
        if env.saveMetadataOk = true then
          (true, ["original_compressed.opus", "transcript_raw.md", "content.md",
                  "metadata.json"])
        else (false, ["original_compressed.opus", "transcript_raw.md", "content.md"])
      else (false, ["original_compressed.opus", "transcript_raw.md"])
    else (false, ["original_compressed.opus"])
  else (false, [])

/-- `FileOrganizer._upload_folder_to_dropbox`: upload each local file in
order; the first failing upload raises immediately, leaving the earlier
uploads in the remote folder. -/
def uploadFolder (ok : Nat → Bool) : List String → Nat → List String → Bool × List String
  | [], _, remote => (true, remote)
  | f :: rest, i, remote =>
    if ok i = true then uploadFolder ok rest (i + 1) (remote ++ [f])
    else (false, remote)

/-- `FileOrganizer.create_output_folder` with a Dropbox client attached:
build the bundle locally, upload it, then remove the local copy; on any
exception remove the partial local folder (`shutil.rmtree`) and re-raise.
Nothing ever removes already-uploaded remote files. -/
def create_output_folder (env : OrgEnv) (remote : List String) : Bool × OrgState :=
  let built := buildLocal env
  if built.1 = true then
    let up := uploadFolder env.uploadOk built.2 0 remote
    if up.1 = true then (true, ⟨[], up.2⟩)
    else (false, ⟨[], up.2⟩)
  else (false, ⟨[], remote⟩)

/-- The geometric back-off sequence `delay, delay*b, delay*b^2, …` of length
`k`, in the accumulator form produced by the loop. -/
def geomSleeps (delay b : ℚ) : Nat → List ℚ
  | 0 => []
  | k + 1 => delay :: geomSleeps (delay * b) b k

lemma geomSleeps_eq_map (b : ℚ) :
    ∀ (k : Nat) (delay : ℚ),
      geomSleeps delay b k = (List.range k).map (fun i => delay * b ^ i)
  | 0, delay => by simp [geomSleeps]
  | k + 1, delay => by
    rw [geomSleeps, geomSleeps_eq_map b k (delay * b), List.range_succ_eq_map]
    simp only [List.map_cons, List.map_map, pow_zero, mul_one]
    refine congrArg (delay :: ·) ?_
    refine congrFun (congrArg List.map ?_) _
    funext i
    simp [Function.comp, pow_succ]
    ring

/-- If the operation fails eligibly on the first `k` attempts and succeeds on
attempt `k` (0-based), with `k` within the allowed retries, the loop returns
the success value after exactly `k + 1` invocations, sleeping the geometric
back-off sequence between attempts. -/
lemma retryLoop_ok (f : Nat → Except E A) (elig : E → Bool) (b : ℚ) (a : A) :
    ∀ (k attempt remaining : Nat) (delay : ℚ), k ≤ remaining →
      (∀ i, i < k → ∃ e, f (attempt + i) = Except.error e ∧ elig e = true) →
      f (attempt + k) = Except.ok a →
      retryLoop f elig b attempt remaining delay =
        ⟨RetryOutcome.ok a, geomSleeps delay b k, k + 1⟩
  | 0, attempt, remaining, delay => by
    intro _ _ hok
    rw [Nat.add_zero] at hok
    rw [retryLoop, hok]
    simp [geomSleeps]
  | k + 1, attempt, remaining, delay => by
    intro hk hfail hok
    obtain ⟨e, hfe, helig⟩ := hfail 0 (Nat.succ_pos k)
    rw [Nat.add_zero] at hfe
    obtain ⟨r, rfl⟩ : ∃ r, remaining = r + 1 := ⟨remaining - 1, by omega⟩
    rw [retryLoop, hfe]
    simp only [helig, if_true]
    rw [retryLoop_ok f elig b a k (attempt + 1) r (delay * b) (by omega)
      (fun i hi => by
        obtain ⟨e', he', helig'⟩ := hfail (i + 1) (by omega)
        exact ⟨e', by rwa [show attempt + 1 + i = attempt + (i + 1) by omega], helig'⟩)
      (by rwa [show attempt + 1 + k = attempt + (k + 1) by omega])]
    simp [geomSleeps]

/-- If the operation fails eligibly on every allowed attempt, the loop raises
`RetryError` wrapping the last underlying error after `remaining + 1`
invocations, having slept the geometric back-off sequence between attempts. -/
lemma retryLoop_exhaust (f : Nat → Except E A) (elig : E → Bool) (b : ℚ) :
    ∀ (remaining attempt : Nat) (delay : ℚ),
      (∀ i, i ≤ remaining → ∃ e, f (attempt + i) = Except.error e ∧ elig e = true) →
      ∃ e, f (attempt + remaining) = Except.error e ∧
        retryLoop f elig b attempt remaining delay =
          ⟨RetryOutcome.retryError e, geomSleeps delay b remaining, remaining + 1⟩
  | 0, attempt, delay => by
    intro hfail
    obtain ⟨e, hfe, helig⟩ := hfail 0 (Nat.zero_le 0)
    rw [Nat.add_zero] at hfe
    refine ⟨e, by rwa [Nat.add_zero], ?_⟩
    rw [retryLoop, hfe]
    simp [helig, geomSleeps]
  | r + 1, attempt, delay => by
    intro hfail
    obtain ⟨e0, hfe0, helig0⟩ := hfail 0 (Nat.zero_le _)
    rw [Nat.add_zero] at hfe0
    obtain ⟨e, hfe, hloop⟩ := retryLoop_exhaust f elig b r (attempt + 1) (delay * b)
      (fun i hi => by
        obtain ⟨e', he', helig'⟩ := hfail (i + 1) (by omega)
        exact ⟨e', by rwa [show attempt + 1 + i = attempt + (i + 1) by omega], helig'⟩)
    refine ⟨e, by rwa [show attempt + (r + 1) = attempt + 1 + r by omega], ?_⟩
    rw [retryLoop, hfe0]
    simp only [helig0, if_true]
    rw [hloop]
    simp [geomSleeps]

example :
    (retry_with_backoff 3 1 (some 2) (fun _ : Unit => true) 2
      (fun _ => (Except.error () : Except Unit Unit))).calls = 3 := by decide

example :
    (retry_with_backoff 3 1 (some 2) (fun _ : Unit => true) 2
      (fun _ => (Except.error () : Except Unit Unit))).sleeps = [1, 2] := by
  norm_num [retry_with_backoff, resolveRetries, retryLoop]

example :
    (failCalls () (CircuitBreaker.init 2 60) [0, 1]).state = CBState.opened := by decide

/-! ## Claim C2: the retry wrapper -/

/-- C2 counterexample: the claim quantifies over *every* `max_retries` value,
but `retries = max_retries or self.max_retries` treats a passed `0` as falsy
and falls back to the handler default. With the default at 3, passing
`max_retries = 0` to an always-failing operation invokes it 4 times, not the
claimed `0 + 1 = 1`. -/
theorem C2_counterexample :
    (retry_with_backoff 3 1 (some 0) (fun _ : Unit => true) 2
      (fun _ => (Except.error () : Except Unit Unit))).calls = 4 ∧
    (4 : Nat) ≠ 0 + 1 := by
  exact ⟨by decide, by decide⟩

/-- C2 (amended): for every `max_retries` value — where Python's
`max_retries or self.max_retries` makes both `None` and `0` fall back to the
handler's default, resolved by `resolveRetries` — the wrapper (a) returns the
success value after exactly `k + 1` invocations with sleep durations
`base, base·b, …, base·b^(k-1)` when the operation fails eligibly `k` times
within the allowed attempts and then succeeds, and (b) after the operation
fails eligibly on all `retries + 1` tries, fails with a `RetryError` wrapping
the last underlying error. -/
theorem C2_retry_with_backoff (selfMax : Nat) (base : ℚ) (m : Option Nat)
    (elig : E → Bool) (b : ℚ) (f : Nat → Except E A) :
    (∀ (k : Nat) (a : A), k ≤ resolveRetries selfMax m →
      (∀ i, i < k → ∃ e, f i = Except.error e ∧ elig e = true) →
      f k = Except.ok a →
      retry_with_backoff selfMax base m elig b f =
        ⟨RetryOutcome.ok a, (List.range k).map (fun i => base * b ^ i), k + 1⟩) ∧
    ((∀ i, i ≤ resolveRetries selfMax m → ∃ e, f i = Except.error e ∧ elig e = true) →
      ∃ e, f (resolveRetries selfMax m) = Except.error e ∧
        retry_with_backoff selfMax base m elig b f =
          ⟨RetryOutcome.retryError e,
            (List.range (resolveRetries selfMax m)).map (fun i => base * b ^ i),
            resolveRetries selfMax m + 1⟩) := by
  constructor
  · intro k a hk hfail hok
    rw [retry_with_backoff, retryLoop_ok f elig b a k 0 (resolveRetries selfMax m)
      base hk (fun i hi => by simpa using hfail i hi) (by simpa using hok)]
    rw [geomSleeps_eq_map]
  · intro hfail
    obtain ⟨e, hfe, hloop⟩ := retryLoop_exhaust f elig b (resolveRetries selfMax m) 0
      base (fun i hi => by simpa using hfail i hi)
    refine ⟨e, by simpa using hfe, ?_⟩
    rw [retry_with_backoff, hloop, geomSleeps_eq_map]

/-- C2 witness: handler default 3, `max_retries = 2`, base delay 1, back-off
factor 2; the operation fails once then returns 7. The wrapper returns 7 after
2 invocations with a single sleep of 1 second. -/
theorem C2_witness :
    retry_with_backoff 3 1 (some 2) (fun _ : Unit => true) 2
      (fun i => if i = 0 then Except.error () else Except.ok (7 : Nat)) =
      ⟨RetryOutcome.ok 7, [1], 2⟩ := by
  have h := (C2_retry_with_backoff 3 1 (some 2) (fun _ : Unit => true) 2
      (fun i => if i = 0 then Except.error () else Except.ok (7 : Nat))).1 1 7
      (by decide)
      (by
        intro i hi
        have hi0 : i = 0 := by omega
        subst hi0
        exact ⟨(), rfl, rfl⟩)
      rfl
  rw [h]
  norm_num [List.range_succ]

/-! ## Claims C3 and C4: the circuit breaker -/

/-- A failing call in the `CLOSED` state just records the failure. -/
lemma call_closed_error (cb : CircuitBreaker) (t : ℚ) (e : E)
    (h : cb.state = CBState.closed) :
    CircuitBreaker.call cb t (Except.error e : Except E Unit) =
      ⟨CallResult.raised e, cb.on_failure t, true⟩ := by
  rw [CircuitBreaker.call, if_neg (by simp [h])]
  rfl

/-- While strictly below the threshold, consecutive failing calls keep the
breaker `CLOSED` and just count up. -/
lemma failCalls_stay_closed (e : E) :
    ∀ (ts : List ℚ) (cb : CircuitBreaker), cb.state = CBState.closed →
      cb.failure_count + ts.length < cb.failure_threshold →
      (failCalls e cb ts).state = CBState.closed ∧
      (failCalls e cb ts).failure_count = cb.failure_count + ts.length ∧
      (failCalls e cb ts).failure_threshold = cb.failure_threshold
  | [], cb => by
    intro h _
    exact ⟨by simpa [failCalls], by simp [failCalls], by simp [failCalls]⟩
  | t :: ts, cb => by
    intro hst hlt
    simp only [List.length_cons] at hlt
    have hstep : (CircuitBreaker.call cb t (Except.error e : Except E Unit)).breaker =
        ⟨cb.failure_threshold, cb.recovery_timeout, cb.failure_count + 1,
          some t, cb.state⟩ := by
      rw [call_closed_error cb t e hst]
      show cb.on_failure t = _
      rw [CircuitBreaker.on_failure, if_neg (by omega)]
    have hrec := failCalls_stay_closed e ts
      ⟨cb.failure_threshold, cb.recovery_timeout, cb.failure_count + 1, some t, cb.state⟩
      hst (by simp only []; omega)
    simp only [failCalls, List.foldl_cons]
    simp only [failCalls] at hrec
    rw [hstep]
    exact ⟨hrec.1, by rw [hrec.2.1]; simp only [List.length_cons]; omega, hrec.2.2⟩

/-- The `failure_threshold`-th consecutive failing call from a fresh breaker
opens the circuit. -/
lemma failCalls_opens (e : E) (ts : List ℚ) (cb : CircuitBreaker)
    (hst : cb.state = CBState.closed)
    (hlen : cb.failure_count + ts.length = cb.failure_threshold)
    (hne : ts ≠ []) :
    (failCalls e cb ts).state = CBState.opened ∧
    (failCalls e cb ts).failure_count = cb.failure_threshold := by
  rcases ts.eq_nil_or_concat' with rfl | ⟨L, t, rfl⟩
  · exact absurd rfl hne
  simp only [List.length_append, List.length_cons, List.length_nil] at hlen
  have hfront := failCalls_stay_closed e L cb hst (by omega)
  have hsplit : failCalls e cb (L ++ [t]) =
      (CircuitBreaker.call (failCalls e cb L) t
        (Except.error e : Except E Unit)).breaker := by
    simp only [failCalls, List.foldl_append, List.foldl_cons, List.foldl_nil]
  rw [hsplit, call_closed_error (failCalls e cb L) t e hfront.1]
  show ((failCalls e cb L).on_failure t).state = _ ∧
    ((failCalls e cb L).on_failure t).failure_count = _
  rw [CircuitBreaker.on_failure, if_pos (by rw [hfront.2.1, hfront.2.2]; omega)]
  exact ⟨rfl, by show (failCalls e cb L).failure_count + 1 = _
                 rw [hfront.2.1]; omega⟩

/-- C3: with the breaker `OPEN` and the recovery timeout not yet elapsed since
the last failure, `call` fails immediately with the circuit-open error, does
not invoke the operation, and leaves the breaker unchanged; and this state is
reached after `failure_threshold` consecutive failing calls from a fresh
breaker (for any positive threshold). -/
theorem C3_open_fast_fail :
    (∀ (cb : CircuitBreaker) (now t : ℚ) (op : Except E A),
      cb.state = CBState.opened → cb.last_failure_time = some t →
      now - t < cb.recovery_timeout →
      cb.call now op = ⟨CallResult.circuitOpen, cb, false⟩) ∧
    (∀ (threshold : Nat) (timeout : ℚ) (e : E) (ts : List ℚ),
      1 ≤ threshold → ts.length = threshold →
      (failCalls e (CircuitBreaker.init threshold timeout) ts).state =
        CBState.opened) := by
  constructor
  · intro cb now t op hst hlt hnot
    rw [CircuitBreaker.call, if_pos hst, if_neg]
    rw [CircuitBreaker.should_attempt_reset, hlt]
    simp only [decide_eq_true_eq]
    intro hle
    exact absurd hnot (not_lt.mpr hle)
  · intro threshold timeout e ts h1 hlen
    exact (failCalls_opens e ts (CircuitBreaker.init threshold timeout) rfl
      (by simpa [CircuitBreaker.init] using hlen)
      (by intro hnil; rw [hnil] at hlen; simp at hlen; omega)).1

/-- C3 witness: a breaker with threshold 5 and timeout 300, opened at time
100, fast-fails a call at time 200 without invoking it; and five consecutive
failing calls open a fresh breaker with threshold 5. -/
theorem C3_witness :
    (CircuitBreaker.call ⟨5, 300, 5, some 100, CBState.opened⟩ 200
        (Except.error () : Except Unit Unit) =
      ⟨CallResult.circuitOpen, ⟨5, 300, 5, some 100, CBState.opened⟩, false⟩) ∧
    (failCalls () (CircuitBreaker.init 5 300) [0, 1, 2, 3, 4]).state =
      CBState.opened := by
  constructor
  · exact (C3_open_fast_fail (E := Unit) (A := Unit)).1
      ⟨5, 300, 5, some 100, CBState.opened⟩ 200 100 (Except.error ()) rfl rfl
      (by norm_num)
  · exact (C3_open_fast_fail (E := Unit) (A := Unit)).2 5 300 () [0, 1, 2, 3, 4]
      (by norm_num) (by decide)

lemma CBInv_init (threshold : Nat) (timeout : ℚ) :
    CBInv (CircuitBreaker.init threshold timeout) := by
  rintro (h | h) <;> exact nomatch h

lemma CBInv_call (cb : CircuitBreaker) (now : ℚ) (op : Except E A)
    (h : CBInv cb) : CBInv (cb.call now op).breaker := by
  rw [CircuitBreaker.call]
  by_cases hop : cb.state = CBState.opened
  · rw [if_pos hop]
    by_cases hres : cb.should_attempt_reset now = true
    · rw [if_pos hres]
      cases op with
      | ok a =>
        intro hs
        exfalso
        have hs' : CBState.closed = CBState.opened ∨
            CBState.closed = CBState.halfOpen := hs
        rcases hs' with h' | h' <;> exact nomatch h'
      | error e =>
        intro _
        show cb.failure_threshold ≤ cb.failure_count + 1
        have hth := h (Or.inl hop)
        omega
    · rw [if_neg hres]
      exact h
  · rw [if_neg hop]
    cases op with
    | ok a =>
      intro hs
      exfalso
      have hs' :
          (if cb.state = CBState.halfOpen then CBState.closed else cb.state) =
              CBState.opened ∨
          (if cb.state = CBState.halfOpen then CBState.closed else cb.state) =
              CBState.halfOpen := hs
      by_cases hh : cb.state = CBState.halfOpen
      · rw [if_pos hh] at hs'
        rcases hs' with h' | h' <;> exact nomatch h'
      · rw [if_neg hh] at hs'
        rcases hs' with h' | h'
        · exact hop h'
        · exact hh h'
    | error e =>
      intro hs
      show cb.failure_threshold ≤ cb.failure_count + 1
      by_cases hc : cb.failure_threshold ≤ cb.failure_count + 1
      · exact hc
      · have hs' :
            (if cb.failure_threshold ≤ cb.failure_count + 1 then CBState.opened
              else cb.state) = CBState.opened ∨
            (if cb.failure_threshold ≤ cb.failure_count + 1 then CBState.opened
              else cb.state) = CBState.halfOpen := hs
        rw [if_neg hc] at hs'
        rcases hs' with h' | h'
        · exact absurd h' hop
        · exact le_trans (h (Or.inr h')) (Nat.le_succ _)

/-- C4: with the breaker `OPEN` and `recovery_timeout` elapsed since
`last_failure_time`, the call is allowed through exactly once (the breaker
probes in `HALF_OPEN`, `invoked = true`, and ends in a non-`HALF_OPEN` state):
on success it resets `failure_count` to 0, clears `last_failure_time` and
closes; on failure it re-raises the underlying error and re-opens (the count
hypothesis holds for every reachable breaker, by `CBInv_call`). -/
theorem C4_recovery_probe (cb : CircuitBreaker) (now t : ℚ)
    (hst : cb.state = CBState.opened) (hlt : cb.last_failure_time = some t)
    (helapsed : cb.recovery_timeout ≤ now - t)
    (hcnt : cb.failure_threshold ≤ cb.failure_count) :
    (∀ a : A, cb.call now (Except.ok a : Except E A) =
      ⟨CallResult.ok a,
        ⟨cb.failure_threshold, cb.recovery_timeout, 0, none, CBState.closed⟩,
        true⟩) ∧
    (∀ e : E, cb.call now (Except.error e : Except E A) =
      ⟨CallResult.raised e,
        ⟨cb.failure_threshold, cb.recovery_timeout, cb.failure_count + 1,
          some now, CBState.opened⟩,
        true⟩) := by
  have hres : cb.should_attempt_reset now = true := by
    rw [CircuitBreaker.should_attempt_reset, hlt]
    simpa using helapsed
  constructor
  · intro a
    rw [CircuitBreaker.call, if_pos hst, if_pos hres]
    show (⟨CallResult.ok a, CircuitBreaker.on_success _, true⟩ : CallRun E A) = _
    rw [CircuitBreaker.on_success]
    norm_num
  · intro e
    rw [CircuitBreaker.call, if_pos hst, if_pos hres]
    show (⟨CallResult.raised e, CircuitBreaker.on_failure _ now, true⟩ : CallRun E A) = _
    rw [CircuitBreaker.on_failure,
      if_pos (by show cb.failure_threshold ≤ cb.failure_count + 1; omega)]

/-- C4 witness: a breaker with threshold 5 and timeout 300 that opened at time
100, probed at time 500: a success closes and clears it; a failure re-opens it
with the count incremented and the time restamped. -/
theorem C4_witness :
    (CircuitBreaker.call ⟨5, 300, 5, some 100, CBState.opened⟩ 500
        (Except.ok () : Except Unit Unit) =
      ⟨CallResult.ok (), ⟨5, 300, 0, none, CBState.closed⟩, true⟩) ∧
    (CircuitBreaker.call ⟨5, 300, 5, some 100, CBState.opened⟩ 500
        (Except.error () : Except Unit Unit) =
      ⟨CallResult.raised (), ⟨5, 300, 6, some 500, CBState.opened⟩, true⟩) := by
  have h := C4_recovery_probe (E := Unit) (A := Unit)
    ⟨5, 300, 5, some 100, CBState.opened⟩ 500 100 rfl rfl (by norm_num) (by norm_num)
  exact ⟨h.1 (), h.2 ()⟩

/-! ## Claim C5: the breaker wraps the retry loop as one call -/

/-- C5: in the transcribe/enhance step shape, a full retried-and-exhausted
sequence of eligible underlying failures — `resolveRetries + 1` invocations of
the underlying operation — increments the breaker's `failure_count` by exactly
one. -/
theorem C5_exhaustion_counts_once (cb : CircuitBreaker) (now : ℚ) (selfMax : Nat)
    (base : ℚ) (m : Option Nat) (elig : E → Bool) (b : ℚ) (f : Nat → Except E A)
    (hst : cb.state = CBState.closed)
    (hfail : ∀ i, i ≤ resolveRetries selfMax m →
      ∃ e, f i = Except.error e ∧ elig e = true) :
    (breakerRetryCall cb now selfMax base m elig b f).breaker.failure_count =
      cb.failure_count + 1 ∧
    (retry_with_backoff selfMax base m elig b f).calls =
      resolveRetries selfMax m + 1 := by
  obtain ⟨e, hfe, hloop⟩ := retryLoop_exhaust f elig b (resolveRetries selfMax m) 0
    base (fun i hi => by simpa using hfail i hi)
  have hr : retry_with_backoff selfMax base m elig b f =
      ⟨RetryOutcome.retryError e, geomSleeps base b (resolveRetries selfMax m),
        resolveRetries selfMax m + 1⟩ := by
    rw [retry_with_backoff, hloop]
  refine ⟨?_, by rw [hr]⟩
  rw [breakerRetryCall, hr]
  show ((CircuitBreaker.call cb now
    (Except.error (PipeErr.retriesExhausted e))).breaker).failure_count = _
  rw [CircuitBreaker.call, if_neg (by simp [hst])]
  show (CircuitBreaker.on_failure cb now).failure_count = _
  rw [CircuitBreaker.on_failure]

/-- C5 witness: the LLM breaker shape (threshold 3, timeout 180) in `CLOSED`
with 0 failures; an enhance call whose underlying operation always fails,
retried with `max_retries = 2`, leaves the breaker with `failure_count = 1`
after 3 underlying invocations. -/
theorem C5_witness :
    (breakerRetryCall (CircuitBreaker.init 3 180) 0 3 2 (some 2)
        (fun _ : Unit => true) 2
        (fun _ => (Except.error () : Except Unit Unit))).breaker.failure_count =
      0 + 1 ∧
    (retry_with_backoff 3 2 (some 2) (fun _ : Unit => true) 2
        (fun _ => (Except.error () : Except Unit Unit))).calls = 2 + 1 :=
  C5_exhaustion_counts_once (CircuitBreaker.init 3 180) 0 3 2 (some 2)
    (fun _ : Unit => true) 2 (fun _ => (Except.error () : Except Unit Unit))
    rfl (fun _ _ => ⟨(), rfl, rfl⟩)

/-! ## Claims C1, C6, C7, C9, C10: the pipeline and the scanner -/

/-- When every stage including the finalize delete goes through, the pipeline
returns normally having claimed the item out of the inbox, uploaded exactly
one new bundle, and removed the processing copy. -/
lemma process_single_file_success (env : ItemEnv) (s : Storage) (name : String)
    (hc : env.claimOk = true) (hd : env.downloadOk = true)
    (ht : env.transcribeOk = true) (he : env.enhanceOk = true)
    (ho : env.organizeOk = true) (hdel : env.deleteOk = true)
    (hin : name ∈ s.inbox) :
    process_single_file env s name =
      ⟨true, ⟨s.inbox.erase name, s.processing, s.failed, name :: s.processedOut⟩,
        [Op.claimMove name, Op.uploadBundle name, Op.deleteProc name]⟩ := by
  rw [process_single_file, move_to_processing, if_pos ⟨hc, hin⟩]
  simp only []
  rw [if_pos ⟨hd, ht, he⟩, if_pos ho]
  rw [delete_processing_file, if_pos ⟨hdel, List.mem_cons_self name s.processing⟩]
  rw [List.erase_cons_head]

/-- The same, at the scanner's per-item level: on success the catch handler
does not run. -/
lemma process_item_success (env : ItemEnv) (s : Storage) (name : String)
    (hc : env.claimOk = true) (hd : env.downloadOk = true)
    (ht : env.transcribeOk = true) (he : env.enhanceOk = true)
    (ho : env.organizeOk = true) (hdel : env.deleteOk = true)
    (hin : name ∈ s.inbox) :
    process_item env s name =
      (⟨s.inbox.erase name, s.processing, s.failed, name :: s.processedOut⟩,
        [Op.claimMove name, Op.uploadBundle name, Op.deleteProc name]) := by
  rw [process_item, process_single_file_success env s name hc hd ht he ho hdel hin]
  rfl

/-- C1 counterexample: the claim's hypothesis lists claim, download,
transcribe, enhance and organize succeeding — but not the finalize delete.
`delete_processing_file` swallows `ApiError`, so with the delete failing the
pipeline still reports success while the item sits in *two* places: the
processing folder and the processed output. -/
theorem C1_counterexample :
    process_single_file ⟨true, true, true, true, true, false, true, true⟩
        ⟨["a.m4a"], [], [], []⟩ "a.m4a" =
      ⟨true, ⟨[], ["a.m4a"], [], ["a.m4a"]⟩,
        [Op.claimMove "a.m4a", Op.uploadBundle "a.m4a", Op.deleteProc "a.m4a"]⟩ :=
  rfl

/-- C1 (amended): for every item whose claim, download, transcribe, enhance
and organize stages succeed *and whose finalize delete of the processing copy
also succeeds*, the run leaves the item in exactly one place — the processed
output — with the inbox and processing copies absent. -/
theorem C1_success_exactly_one_place (env : ItemEnv) (s : Storage) (name : String)
    (hc : env.claimOk = true) (hd : env.downloadOk = true)
    (ht : env.transcribeOk = true) (he : env.enhanceOk = true)
    (ho : env.organizeOk = true) (hdel : env.deleteOk = true)
    (hin : name ∈ s.inbox) (hnodup : s.inbox.Nodup)
    (hnp : name ∉ s.processing) (hnf : name ∉ s.failed)
    (hno : name ∉ s.processedOut) :
    (process_single_file env s name).ok = true ∧
    name ∉ (process_item env s name).1.inbox ∧
    name ∉ (process_item env s name).1.processing ∧
    name ∉ (process_item env s name).1.failed ∧
    (process_item env s name).1.processedOut = name :: s.processedOut := by
  rw [process_single_file_success env s name hc hd ht he ho hdel hin,
    process_item_success env s name hc hd ht he ho hdel hin]
  exact ⟨rfl, hnodup.not_mem_erase, hnp, hnf, rfl⟩

/-- C1 witness: one fully successful run on an inbox holding a single item. -/
theorem C1_witness :
    (process_single_file ⟨true, true, true, true, true, true, true, true⟩
        ⟨["a.m4a"], [], [], []⟩ "a.m4a").ok = true ∧
    "a.m4a" ∉ (process_item ⟨true, true, true, true, true, true, true, true⟩
        ⟨["a.m4a"], [], [], []⟩ "a.m4a").1.inbox ∧
    "a.m4a" ∉ (process_item ⟨true, true, true, true, true, true, true, true⟩
        ⟨["a.m4a"], [], [], []⟩ "a.m4a").1.processing ∧
    "a.m4a" ∉ (process_item ⟨true, true, true, true, true, true, true, true⟩
        ⟨["a.m4a"], [], [], []⟩ "a.m4a").1.failed ∧
    (process_item ⟨true, true, true, true, true, true, true, true⟩
        ⟨["a.m4a"], [], [], []⟩ "a.m4a").1.processedOut = ["a.m4a"] :=
  C1_success_exactly_one_place ⟨true, true, true, true, true, true, true, true⟩
    ⟨["a.m4a"], [], [], []⟩ "a.m4a" rfl rfl rfl rfl rfl rfl (by decide) (by decide)
    (by decide) (by decide) (by decide)

/-- C6 counterexample: the claim says a failed claim step leaves the item in
the inbox for the next scan. It does not: the scanner's catch handler then
moves the still-in-inbox copy to the *failed* folder, and that move succeeds
here, so the item ends in `failed`, not `inbox`. -/
theorem C6_counterexample :
    process_item ⟨false, true, true, true, true, true, true, true⟩
        ⟨["a.m4a"], [], [], []⟩ "a.m4a" =
      (⟨[], [], ["a.m4a"], []⟩, [Op.claimMove "a.m4a", Op.failedMove "a.m4a"]) :=
  rfl

/-- C6 (amended): for every item whose claim move fails, the pipeline aborts
with storage untouched and the scanner's handler best-effort moves the inbox
copy to the failed location: the item ends in the failed folder when that move
succeeds, and remains in the inbox only when it also fails. -/
theorem C6_claim_failure (env : ItemEnv) (s : Storage) (name : String)
    (hc : env.claimOk = false) (hin : name ∈ s.inbox) :
    (process_single_file env s name).ok = false ∧
    (process_single_file env s name).store = s ∧
    process_item env s name =
      (move_to_failed env s name, [Op.claimMove name, Op.failedMove name]) ∧
    (env.inboxFailedMoveOk = true →
      (process_item env s name).1 =
        ⟨s.inbox.erase name, s.processing, name :: s.failed, s.processedOut⟩) ∧
    (env.inboxFailedMoveOk = false → (process_item env s name).1 = s) := by
  have habort : process_single_file env s name = ⟨false, s, [Op.claimMove name]⟩ := by
    rw [process_single_file, move_to_processing,
      if_neg (by rw [hc]; exact fun hx => nomatch hx.1)]
  have hitem : process_item env s name =
      (move_to_failed env s name, [Op.claimMove name, Op.failedMove name]) := by
    rw [process_item, habort]
    rfl
  refine ⟨by rw [habort], by rw [habort], hitem, ?_, ?_⟩
  · intro hok
    rw [hitem]
    show move_to_failed env s name = _
    rw [move_to_failed, if_pos ⟨hok, hin⟩]
  · intro hno
    rw [hitem]
    show move_to_failed env s name = s
    rw [move_to_failed, if_neg (by rw [hno]; exact fun hx => nomatch hx.1)]

/-- C6 witness: claim fails, the handler's move succeeds — the item ends in
the failed folder; with the handler's move also failing it stays in the
inbox. -/
theorem C6_witness :
    (process_single_file ⟨false, true, true, true, true, true, true, true⟩
        ⟨["a.m4a"], [], [], []⟩ "a.m4a").ok = false ∧
    (process_item ⟨false, true, true, true, true, true, true, true⟩
        ⟨["a.m4a"], [], [], []⟩ "a.m4a").1 = ⟨[], [], ["a.m4a"], []⟩ := by
  have h := C6_claim_failure ⟨false, true, true, true, true, true, true, true⟩
    ⟨["a.m4a"], [], [], []⟩ "a.m4a" rfl (by decide)
  exact ⟨h.1, by rw [h.2.2.2.1 rfl]; rfl⟩

/-- C9: an empty scan is a no-op: listing an empty inbox, `process_inbox`
returns with storage unchanged and no claim, move, delete or upload call
attempted. -/
theorem C9_empty_scan_noop (envs : String → ItemEnv) (s : Storage)
    (h : s.inbox = []) : process_inbox envs s = (s, []) := by
  rw [process_inbox]
  simp [h]

/-- C9 witness: a scan over an empty inbox (with files elsewhere) changes
nothing and attempts nothing. -/
theorem C9_witness :
    process_inbox (fun _ => ⟨true, true, true, true, true, true, true, true⟩)
      ⟨[], ["p.m4a"], ["f.m4a"], ["done"]⟩ =
      (⟨[], ["p.m4a"], ["f.m4a"], ["done"]⟩, []) :=
  C9_empty_scan_noop _ _ rfl

/-- When the claim succeeds but download, transcribe, enhance or organize
fails, the pipeline takes the abort path: the item is moved (best-effort) from
processing to failed and the error re-raised. -/
lemma process_single_file_abort (env : ItemEnv) (s : Storage) (name : String)
    (hc : env.claimOk = true) (hin : name ∈ s.inbox)
    (hfail : env.downloadOk = false ∨ env.transcribeOk = false ∨
      env.enhanceOk = false ∨ env.organizeOk = false) :
    process_single_file env s name =
      ⟨false,
        move_to_failed_from_processing env
          ⟨s.inbox.erase name, name :: s.processing, s.failed, s.processedOut⟩ name,
        [Op.claimMove name, Op.procFailedMove name]⟩ := by
  rw [process_single_file, move_to_processing, if_pos ⟨hc, hin⟩]
  simp only []
  by_cases hb : env.downloadOk = true ∧ env.transcribeOk = true ∧ env.enhanceOk = true
  · have ho : env.organizeOk = false := by
      rcases hfail with h | h | h | h
      · rw [h] at hb; exact absurd hb.1 (fun hx => nomatch hx)
      · rw [h] at hb; exact absurd hb.2.1 (fun hx => nomatch hx)
      · rw [h] at hb; exact absurd hb.2.2 (fun hx => nomatch hx)
      · exact h
    rw [if_pos hb, if_neg (by rw [ho]; exact fun hx => nomatch hx)]
  · rw [if_neg hb]

/-- C10: for every item that fails after a successful claim, the scanner's
handler attempts a second move to the failed location from the item's original
inbox path — after the pipeline's own processing→failed move — and since the
file no longer sits at the inbox path, this second move fails and changes
nothing; its failure is only logged (the run still terminates normally). -/
theorem C10_second_failed_move (env : ItemEnv) (s : Storage) (name : String)
    (hc : env.claimOk = true) (hin : name ∈ s.inbox) (hnodup : s.inbox.Nodup)
    (hfail : env.downloadOk = false ∨ env.transcribeOk = false ∨
      env.enhanceOk = false ∨ env.organizeOk = false) :
    (process_item env s name).2 =
      [Op.claimMove name, Op.procFailedMove name, Op.failedMove name] ∧
    (process_item env s name).1 = (process_single_file env s name).store := by
  have habort := process_single_file_abort env s name hc hin hfail
  have hstore_inbox :
      (move_to_failed_from_processing env
        ⟨s.inbox.erase name, name :: s.processing, s.failed, s.processedOut⟩
        name).inbox = s.inbox.erase name := by
    rw [move_to_failed_from_processing]
    split <;> rfl
  constructor
  · rw [process_item, habort]
    rfl
  · rw [process_item, habort]
    show move_to_failed env
      (move_to_failed_from_processing env
        ⟨s.inbox.erase name, name :: s.processing, s.failed, s.processedOut⟩ name)
      name = _
    rw [move_to_failed, if_neg]
    intro hx
    rw [hstore_inbox] at hx
    exact hnodup.not_mem_erase hx.2

/-- C10 witness: claim succeeds, download fails; the run attempts the
processing→failed move and then the inbox→failed move, and the latter is a
no-op on storage. -/
theorem C10_witness :
    (process_item ⟨true, false, true, true, true, true, true, true⟩
        ⟨["a.m4a"], [], [], []⟩ "a.m4a").2 =
      [Op.claimMove "a.m4a", Op.procFailedMove "a.m4a", Op.failedMove "a.m4a"] ∧
    (process_item ⟨true, false, true, true, true, true, true, true⟩
        ⟨["a.m4a"], [], [], []⟩ "a.m4a").1 =
      (process_single_file ⟨true, false, true, true, true, true, true, true⟩
        ⟨["a.m4a"], [], [], []⟩ "a.m4a").store :=
  C10_second_failed_move ⟨true, false, true, true, true, true, true, true⟩
    ⟨["a.m4a"], [], [], []⟩ "a.m4a" rfl (by decide) (by decide) (Or.inl rfl)

/-- `_process_single_file` always takes one of three shapes: claim failure
(storage untouched), full success, or the abort path after a successful
claim. -/
lemma process_single_file_cases (env : ItemEnv) (s : Storage) (a : String) :
    process_single_file env s a = ⟨false, s, [Op.claimMove a]⟩ ∨
    process_single_file env s a =
      ⟨true, delete_processing_file env
        ⟨s.inbox.erase a, a :: s.processing, s.failed, a :: s.processedOut⟩ a,
        [Op.claimMove a, Op.uploadBundle a, Op.deleteProc a]⟩ ∨
    process_single_file env s a =
      ⟨false, move_to_failed_from_processing env
        ⟨s.inbox.erase a, a :: s.processing, s.failed, s.processedOut⟩ a,
        [Op.claimMove a, Op.procFailedMove a]⟩ := by
  rw [process_single_file, move_to_processing]
  by_cases h1 : env.claimOk = true ∧ a ∈ s.inbox
  · rw [if_pos h1]
    simp only []
    by_cases h2 : env.downloadOk = true ∧ env.transcribeOk = true ∧
        env.enhanceOk = true
    · rw [if_pos h2]
      by_cases h3 : env.organizeOk = true
      · rw [if_pos h3]
        exact Or.inr (Or.inl rfl)
      · rw [if_neg h3]
        exact Or.inr (Or.inr rfl)
    · rw [if_neg h2]
      exact Or.inr (Or.inr rfl)
  · rw [if_neg h1]
    exact Or.inl rfl

/-- The storage after one scanner iteration, as a conditional on the pipeline
outcome. -/
lemma process_item_eq (env : ItemEnv) (s : Storage) (a : String) :
    (process_item env s a).1 =
      if (process_single_file env s a).ok = true
      then (process_single_file env s a).store
      else move_to_failed env (process_single_file env s a).store a := by
  rw [process_item]
  split <;> rfl

/-- Processing item `a` never touches the folder membership of a different
name `x`. -/
lemma process_item_frame (env : ItemEnv) (s : Storage) (a x : String)
    (hax : x ≠ a) :
    (x ∈ (process_item env s a).1.inbox ↔ x ∈ s.inbox) ∧
    (x ∈ (process_item env s a).1.processing ↔ x ∈ s.processing) ∧
    (x ∈ (process_item env s a).1.failed ↔ x ∈ s.failed) ∧
    (x ∈ (process_item env s a).1.processedOut ↔ x ∈ s.processedOut) := by
  rw [process_item_eq]
  rcases process_single_file_cases env s a with h | h | h <;> rw [h]
  · rw [if_neg (fun hx => nomatch hx), move_to_failed]
    split_ifs <;> simp [List.mem_erase_of_ne hax, hax]
  · rw [if_pos rfl, delete_processing_file]
    split_ifs <;> simp [List.mem_erase_of_ne hax, hax]
  · rw [if_neg (fun hx => nomatch hx), move_to_failed, move_to_failed_from_processing]
    split_ifs <;> simp [List.mem_erase_of_ne hax, hax]

/-- With a duplicate-free inbox, processing an item leaves the inbox either
untouched or with exactly that item claimed out of it. -/
lemma process_item_inbox_shape (env : ItemEnv) (s : Storage) (a : String)
    (hnd : s.inbox.Nodup) :
    (process_item env s a).1.inbox = s.inbox ∨
    (process_item env s a).1.inbox = s.inbox.erase a := by
  rw [process_item_eq]
  rcases process_single_file_cases env s a with h | h | h <;> rw [h]
  · rw [if_neg (fun hx => nomatch hx), move_to_failed]
    split_ifs <;> simp
  · rw [if_pos rfl, delete_processing_file]
    split_ifs <;> simp
  · rw [if_neg (fun hx => nomatch hx), move_to_failed, move_to_failed_from_processing]
    split_ifs <;> simp_all [hnd.not_mem_erase]

lemma process_item_inbox_nodup (env : ItemEnv) (s : Storage) (a : String)
    (h : s.inbox.Nodup) : (process_item env s a).1.inbox.Nodup := by
  rcases process_item_inbox_shape env s a h with hs | hs <;> rw [hs]
  · exact h
  · exact h.erase a

/-- C7: batch isolation. With two distinct pending items `a` then `b`, any
combination of failures while processing `a` — including failures of the abort
path's own moves — is caught by the scanner, and `b` still completes
successfully in the same scan, ending only in the processed output. -/
theorem C7_batch_isolation (envs : String → ItemEnv) (s : Storage) (a b : String)
    (hab : a ≠ b) (hinbox : s.inbox = [a, b])
    (hc : (envs b).claimOk = true) (hd : (envs b).downloadOk = true)
    (ht : (envs b).transcribeOk = true) (he : (envs b).enhanceOk = true)
    (ho : (envs b).organizeOk = true) (hdel : (envs b).deleteOk = true)
    (hnp : b ∉ s.processing) (hnf : b ∉ s.failed) (hno : b ∉ s.processedOut) :
    b ∉ (process_inbox envs s).1.inbox ∧
    b ∉ (process_inbox envs s).1.processing ∧
    b ∉ (process_inbox envs s).1.failed ∧
    b ∈ (process_inbox envs s).1.processedOut := by
  have hfold : (process_inbox envs s).1 =
      (process_item (envs b) ((process_item (envs a) s a).1) b).1 := by
    rw [process_inbox]
    simp only []
    rw [hinbox, if_neg (List.cons_ne_nil a [b])]
    simp only [List.foldl_cons, List.foldl_nil]
  have hframe := process_item_frame (envs a) s a b (Ne.symm hab)
  have hnodup1 : ((process_item (envs a) s a).1).inbox.Nodup :=
    process_item_inbox_nodup (envs a) s a (by rw [hinbox]; simp [hab])
  have hbin : b ∈ ((process_item (envs a) s a).1).inbox := by
    rw [hframe.1, hinbox]; simp
  have hstep := process_item_success (envs b) ((process_item (envs a) s a).1) b
    hc hd ht he ho hdel hbin
  rw [hfold, hstep]
  refine ⟨hnodup1.not_mem_erase, ?_, ?_, List.mem_cons_self b _⟩
  · rw [← hframe.2.1] at hnp
    exact hnp
  · rw [← hframe.2.2.1] at hnf
    exact hnf

/-- C7 witness: item `a.m4a` fails at transcription and even both abort-path
moves fail; item `b.m4a` in the same scan still completes into the processed
output. -/
theorem C7_witness :
    "b.m4a" ∉ (process_inbox
      (fun n => if n = "a.m4a" then ⟨true, true, false, true, true, true, false, false⟩
                else ⟨true, true, true, true, true, true, true, true⟩)
      ⟨["a.m4a", "b.m4a"], [], [], []⟩).1.inbox ∧
    "b.m4a" ∉ (process_inbox
      (fun n => if n = "a.m4a" then ⟨true, true, false, true, true, true, false, false⟩
                else ⟨true, true, true, true, true, true, true, true⟩)
      ⟨["a.m4a", "b.m4a"], [], [], []⟩).1.processing ∧
    "b.m4a" ∉ (process_inbox
      (fun n => if n = "a.m4a" then ⟨true, true, false, true, true, true, false, false⟩
                else ⟨true, true, true, true, true, true, true, true⟩)
      ⟨["a.m4a", "b.m4a"], [], [], []⟩).1.failed ∧
    "b.m4a" ∈ (process_inbox
      (fun n => if n = "a.m4a" then ⟨true, true, false, true, true, true, false, false⟩
                else ⟨true, true, true, true, true, true, true, true⟩)
      ⟨["a.m4a", "b.m4a"], [], [], []⟩).1.processedOut :=
  C7_batch_isolation _ ⟨["a.m4a", "b.m4a"], [], [], []⟩ "a.m4a" "b.m4a"
    (by decide) rfl (by decide) (by decide) (by decide) (by decide) (by decide)
    (by decide) (by decide) (by decide) (by decide)

/-! ## Claim C8: organize-stage failure -/

/-- Full characterization of the upload loop: it stops at the first failing
upload (index `n`, counted from `i`), having appended to the remote folder
exactly the files before it; it reports success exactly when every file was
uploaded. -/
lemma uploadFolder_spec (ok : Nat → Bool) :
    ∀ (files : List String) (i : Nat) (remote : List String),
      ∃ n, n ≤ files.length ∧
        (∀ j, j < n → ok (i + j) = true) ∧
        ((uploadFolder ok files i remote).1 = true ↔ n = files.length) ∧
        (n < files.length → ok (i + n) = false) ∧
        (uploadFolder ok files i remote).2 = remote ++ files.take n
  | [], i, remote => by
    refine ⟨0, Nat.le_refl 0, fun j hj => absurd hj (Nat.not_lt_zero j), ?_, ?_, ?_⟩
    · rw [uploadFolder]
      simp
    · intro hx
      exact absurd hx (Nat.not_lt_zero 0)
    · rw [uploadFolder]
      simp
  | f :: rest, i, remote => by
    by_cases h : ok i = true
    · obtain ⟨n, hlen, hok, hiff, hlt, heq⟩ :=
        uploadFolder_spec ok rest (i + 1) (remote ++ [f])
      refine ⟨n + 1, by simp only [List.length_cons]; omega, ?_, ?_, ?_, ?_⟩
      · intro j hj
        cases j with
        | zero => simpa using h
        | succ j' =>
          have hj' := hok j' (by omega)
          rwa [show i + 1 + j' = i + (j' + 1) by omega] at hj'
      · rw [uploadFolder, if_pos h, hiff]
        simp only [List.length_cons]
        omega
      · intro hlt'
        simp only [List.length_cons] at hlt'
        have hn := hlt (by omega)
        rwa [show i + 1 + n = i + (n + 1) by omega] at hn
      · rw [uploadFolder, if_pos h, heq]
        simp
    · refine ⟨0, Nat.zero_le _, fun j hj => absurd hj (Nat.not_lt_zero j), ?_, ?_, ?_⟩
      · rw [uploadFolder, if_neg h]
        simp only [List.length_cons]
        constructor
        · intro hx
          exact absurd hx (fun hx' => nomatch hx')
        · intro hx
          exact absurd hx (by omega)
      · intro _
        simpa using h
      · rw [uploadFolder, if_neg h]
        simp

/-- C8 counterexample: the claim says no partial uploads remain referenced in
storage after an organize-stage failure. But when the second of four artifact
uploads fails, the first file is already in the remote processed folder and
nothing removes it: the remote folder retains the partial upload even though
the local bundle was discarded. -/
theorem C8_counterexample :
    (create_output_folder ⟨true, true, true, true, fun i => i == 0⟩ []).1 = false ∧
    (create_output_folder ⟨true, true, true, true, fun i => i == 0⟩ []).2.remoteFiles =
      ["original_compressed.opus"] ∧
    (create_output_folder ⟨true, true, true, true, fun i => i == 0⟩ []).2.localFiles =
      [] :=
  ⟨rfl, rfl, rfl⟩

/-- C8 (amended): on any failure during the organize stage the partially
written *local* bundle is discarded entirely (`shutil.rmtree` in the except
handler). When a local artifact write failed, nothing was uploaded and the
remote processed folder is exactly as before. When the bundle was built and
the upload loop failed, the remote folder retains *exactly* the artifacts
before the first failing upload — every upload before index `n` succeeded,
upload `n` failed, and the `n` uploaded files are not rolled back. -/
theorem C8_failure_discards_local (env : OrgEnv) (remote : List String)
    (hfail : (create_output_folder env remote).1 = false) :
    (create_output_folder env remote).2.localFiles = [] ∧
    ((buildLocal env).1 = false →
      (create_output_folder env remote).2.remoteFiles = remote) ∧
    ((buildLocal env).1 = true →
      ∃ n, n < (buildLocal env).2.length ∧
        (∀ j, j < n → env.uploadOk j = true) ∧
        env.uploadOk n = false ∧
        (create_output_folder env remote).2.remoteFiles =
          remote ++ (buildLocal env).2.take n) := by
  rw [create_output_folder] at hfail ⊢
  by_cases hb : (buildLocal env).1 = true
  · rw [if_pos hb] at hfail ⊢
    obtain ⟨n, hlen, hok, hiff, hlt, heq⟩ :=
      uploadFolder_spec env.uploadOk (buildLocal env).2 0 remote
    by_cases hu : (uploadFolder env.uploadOk (buildLocal env).2 0 remote).1 = true
    · rw [if_pos hu] at hfail
      exact absurd hfail (fun hx => nomatch hx)
    · rw [if_neg hu]
      have hnlt : n < (buildLocal env).2.length :=
        lt_of_le_of_ne hlen (fun hx => hu (hiff.mpr hx))
      refine ⟨rfl, ?_, fun _ => ⟨n, hnlt, ?_, ?_, heq⟩⟩
      · intro hb'
        rw [hb'] at hb
        exact nomatch hb
      · intro j hj
        simpa using hok j hj
      · simpa using hlt hnlt
  · rw [if_neg hb]
    exact ⟨rfl, fun _ => rfl, fun hb' => absurd hb' hb⟩

/-- C8 witness: saves succeed, the very first upload fails; the local bundle
is discarded and the remote folder is left exactly as it was (zero of the four
artifacts uploaded, upload 0 the failing one). -/
theorem C8_witness :
    (create_output_folder ⟨true, true, true, true, fun _ => false⟩
      ["old.txt"]).2.localFiles = [] ∧
    ((buildLocal ⟨true, true, true, true, fun _ => false⟩).1 = false →
      (create_output_folder ⟨true, true, true, true, fun _ => false⟩
        ["old.txt"]).2.remoteFiles = ["old.txt"]) ∧
    ((buildLocal ⟨true, true, true, true, fun _ => false⟩).1 = true →
      ∃ n, n < (buildLocal ⟨true, true, true, true, fun _ => false⟩).2.length ∧
        (∀ j, j < n → (fun _ : Nat => false) j = true) ∧
        (fun _ : Nat => false) n = false ∧
        (create_output_folder ⟨true, true, true, true, fun _ => false⟩
          ["old.txt"]).2.remoteFiles =
          ["old.txt"] ++
            (buildLocal ⟨true, true, true, true, fun _ => false⟩).2.take n) :=
  C8_failure_discards_local ⟨true, true, true, true, fun _ => false⟩ ["old.txt"] rfl

end Ramble
